import Mathlib

/-!
# Verification of the godirect protocol engine

Shallow embedding of the protocol engine in `src/godirect/Device.ts` and
`Sensor.ts`/`utils.ts`: packet framing and checksumming (`#calculateChecksum`,
`sendCommand`), the rolling sequence counter (`#decRollingCounter`), the write
queue and its timeout filter (`#queueWriteCommand`), fragmented-response
reassembly (`#handleResponse`), measurement decoding (`#processMeasurements`,
`#getSensorsWithMask`), sensor enumeration (`#getAvailableSensors`,
`#getSensorInfo`), the mutual-exclusion constraint scan (the `state-changed`
handler), chunked transport writes (`#writeToDevice`), and the start/stop
acknowledgment handling.

Buffers (`Uint8Array` / `DataView` contents) are embedded as `List Nat` of
byte values; JavaScript numbers that may go negative (the rolling counter,
the checksum accumulator, the remaining-response counter) are embedded as
`Int`; JavaScript exceptions (out-of-bounds `DataView` reads, use of a null
buffer) are embedded as `Except Unit`.
-/

/-- Modelled from the spec: `commands.HEADER` lives in `constants.js`, which is
not among the provided sources. §4.1 fixes its shape — a fixed four-byte
protocol header whose bytes at offsets 1 (length), 2 (sequence id) and
3 (checksum) are overwritten by the framer; only its length matters to the
engine, so the leading marker byte value is a placeholder. -/
def commandsHEADER : List Nat := [0x58, 0x00, 0x00, 0x00]

/-- Embedding of `Device.#calculateChecksum`: read the declared length from
byte 1, start the accumulator at `-1 * buff[3]`, add every byte in
`[0, length)` reducing modulo 256 after each addition (JavaScript
`checksum &= 0xff`, which yields a value in `[0, 255]` even for a negative
accumulator), and return 0 if the result is out of range (the defensive
branch in the source). -/
def calculateChecksum (buff : List Nat) : Nat :=
  let length := buff.getD 1 0
  let c : Int :=
    (List.range length).foldl
      (fun acc i => (acc + (buff.getD i 0 : Int)) % 256)
      (-(buff.getD 3 0 : Int))
  if c < 0 ∨ 255 < c then 0 else c.toNat

/-- Embedding of `Device.#decRollingCounter` acting on the raw JavaScript
counter (a plain number, so an unbounded integer): `return this.rollingCounter--`
returns the old value and leaves the counter decremented, with no masking. -/
def decRollingCounter (rollingCounter : Int) : Int × Int :=
  (rollingCounter, rollingCounter - 1)

/-- Storing a JavaScript number into a `Uint8Array` cell applies `ToUint8`,
i.e. reduction modulo 256 (non-negative even for negative integers). -/
def toUint8 (x : Int) : Nat := (x % 256).toNat

/-- Embedding of the packet-finalization steps of `Device.sendCommand`
performed after concatenation: overwrite byte 1 with the total length,
byte 2 with the value returned by the rolling-counter decrement, and byte 3
with the checksum computed over the packet as it stands at that point. -/
def finalizePacket (cmd : List Nat) (counterReturned : Int) : List Nat :=
  let c1 := cmd.set 1 (cmd.length % 256)
  let c2 := c1.set 2 (toUint8 counterReturned)
  c2.set 3 (calculateChecksum c2)

/-- Embedding of `Device.sendCommand`: concatenate the fixed header with the
sub-command and finalize length, sequence id and checksum. `rollingCounter`
is the counter value before the send; the packet carries its 8-bit image. -/
def sendCommandPacket (subCommand : List Nat) (rollingCounter : Int) : List Nat :=
  finalizePacket (commandsHEADER ++ subCommand) (decRollingCounter rollingCounter).1

/-- Byte sum of the first `n` entries of a buffer, as an integer. -/
def byteSum (l : List Nat) (n : Nat) : Int :=
  ((List.range n).map (fun i => (l.getD i 0 : Int))).sum

theorem byteSum_succ (l : List Nat) (n : Nat) :
    byteSum l (n + 1) = byteSum l n + (l.getD n 0 : Int) := by
  simp [byteSum, List.range_succ]

/-- The checksum fold computes `(init + byteSum) % 256` as soon as the loop
runs at least once. -/
theorem chkFold_eq (l : List Nat) :
    ∀ n : Nat, 1 ≤ n → ∀ a : Int,
      (List.range n).foldl (fun acc i => (acc + (l.getD i 0 : Int)) % 256) a
        = (a + byteSum l n) % 256 := by
  intro n
  induction n with
  | zero => intro h; omega
  | succ m ih =>
    intro _ a
    rw [List.range_succ, List.foldl_append, byteSum_succ]
    by_cases hm : 1 ≤ m
    · rw [ih hm a]
      simp only [List.foldl_cons, List.foldl_nil]
      omega
    · have hm0 : m = 0 := by omega
      subst hm0
      simp [byteSum]

theorem byteSum_set (l : List Nat) (k v : Nat) (hk : k < l.length) :
    ∀ n : Nat, k < n →
      byteSum (l.set k v) n = byteSum l n - (l.getD k 0 : Int) + v := by
  intro n
  induction n with
  | zero => omega
  | succ m ih =>
    intro hkn
    by_cases h : k < m
    · rw [byteSum_succ, byteSum_succ, ih h]
      have hne : k ≠ m := by omega
      have : (l.set k v).getD m 0 = l.getD m 0 := by
        simp [List.getD, List.getElem?_set_ne hne]
      rw [this]; ring
    · have hkm : k = m := by omega
      subst hkm
      rw [byteSum_succ, byteSum_succ]
      have h1 : (l.set k v).getD k 0 = v := by
        simp [List.getD, List.getElem?_set_self, hk]
      have h2 : ∀ j, j < k → (l.set k v).getD j 0 = l.getD j 0 := by
        intro j hj
        have hne : k ≠ j := by omega
        simp [List.getD, List.getElem?_set_ne hne]
      have h3 : byteSum (l.set k v) k = byteSum l k := by
        unfold byteSum
        congr 1
        apply List.map_congr_left
        intro j hj
        rw [h2 j (List.mem_range.mp hj)]
      rw [h1, h3]; ring

theorem byteSum_ne_touch (l : List Nat) (k v n : Nat) (h : n ≤ k) :
    byteSum (l.set k v) n = byteSum l n := by
  unfold byteSum
  congr 1
  apply List.map_congr_left
  intro j hj
  have hj' : j < n := List.mem_range.mp hj
  have hne : k ≠ j := by omega
  simp [List.getD, List.getElem?_set_ne hne]

theorem getD_set_ne {α : Type} (l : List α) (i j : Nat) (v d : α) (h : i ≠ j) :
    (l.set i v).getD j d = l.getD j d := by
  simp [List.getD_eq_getElem?_getD, List.getElem?_set_ne h]

theorem getD_set_self {α : Type} (l : List α) (i : Nat) (v d : α)
    (h : i < l.length) : (l.set i v).getD i d = v := by
  simp [List.getD_eq_getElem?_getD, List.getElem?_set_self h]

/-- When the declared length is at least 1, the defensive out-of-range branch
of `#calculateChecksum` is dead and the result is the reduced sum. -/
theorem calculateChecksum_eq (buff : List Nat) (h : 1 ≤ buff.getD 1 0) :
    calculateChecksum buff
      = (((-(buff.getD 3 0 : Int)) + byteSum buff (buff.getD 1 0)) % 256).toNat := by
  simp only [calculateChecksum]
  rw [chkFold_eq buff (buff.getD 1 0) h]
  rw [if_neg (by omega)]

theorem finalize_checksum_roundtrip (cmd : List Nat) (c : Int)
    (h4 : 4 ≤ cmd.length) (h255 : cmd.length ≤ 255) :
    calculateChecksum (finalizePacket cmd c) = (finalizePacket cmd c).getD 3 0 := by
  have h1lt : 1 < cmd.length := by omega
  have hmod : cmd.length % 256 = cmd.length := Nat.mod_eq_of_lt (by omega)
  set B : List Nat := (cmd.set 1 (cmd.length % 256)).set 2 (toUint8 c) with hBdef
  have hBlen : B.length = cmd.length := by simp [hBdef]
  have hB1 : B.getD 1 0 = cmd.length := by
    rw [hBdef, getD_set_ne _ _ _ _ _ (by decide), getD_set_self _ _ _ _ h1lt, hmod]
  have hB3 : B.getD 3 0 = cmd.getD 3 0 := by
    rw [hBdef, getD_set_ne _ _ _ _ _ (by decide), getD_set_ne _ _ _ _ _ (by decide)]
  set cB := calculateChecksum B with hcBdef
  have hFP : finalizePacket cmd c = B.set 3 cB := rfl
  have hP1 : (B.set 3 cB).getD 1 0 = cmd.length := by
    rw [getD_set_ne _ _ _ _ _ (by decide)]; exact hB1
  have hP3 : (B.set 3 cB).getD 3 0 = cB :=
    getD_set_self _ _ _ _ (by omega)
  have hchkB : cB = ((-(cmd.getD 3 0 : Int) + byteSum B cmd.length) % 256).toNat := by
    rw [hcBdef, calculateChecksum_eq B (by omega), hB1, hB3]
  have hsum : byteSum (B.set 3 cB) cmd.length
      = byteSum B cmd.length - (B.getD 3 0 : Int) + cB :=
    byteSum_set B 3 cB (by omega) cmd.length (by omega)
  rw [hFP, hP3]
  rw [calculateChecksum_eq (B.set 3 cB) (by omega), hP1, hP3]
  have harg : (-(cB : Int) + byteSum (B.set 3 cB) cmd.length)
      = -(cmd.getD 3 0 : Int) + byteSum B cmd.length := by
    rw [hsum, hB3]; ring
  rw [harg]
  exact hchkB.symm

/-- C2: every packet finalized by `sendCommand` (header plus payload, with
length, sequence id and checksum filled in at offsets 1–3) survives a checksum
round trip — recomputing `#calculateChecksum` over the finalized bytes yields
exactly the value stored at offset 3. The hypothesis restricts to packets
whose total length fits the one-byte length field. -/
theorem sendCommand_checksum_roundtrip (subCommand : List Nat) (counter : Int)
    (h : (commandsHEADER ++ subCommand).length ≤ 255) :
    calculateChecksum (sendCommandPacket subCommand counter)
      = (sendCommandPacket subCommand counter).getD 3 0 := by
  unfold sendCommandPacket
  exact finalize_checksum_roundtrip _ _ (by simp [commandsHEADER]) h

theorem sendCommand_checksum_roundtrip_witness :
    (commandsHEADER ++ [0x55, 0x2C]).length ≤ 255 ∧
      calculateChecksum (sendCommandPacket [0x55, 0x2C] 0xFF)
        = (sendCommandPacket [0x55, 0x2C] 0xFF).getD 3 0 :=
  ⟨by decide, sendCommand_checksum_roundtrip [0x55, 0x2C] 0xFF (by decide)⟩

/-- The device's rolling counter after `#init` (which sets it to `0xff`)
followed by `n` sends; each send passes through `#decRollingCounter`, whose
post-decrement leaves the counter one lower. The JavaScript counter is a plain
number and is never masked, so it goes negative after 256 sends. -/
def rollingCounterAfterSends : Nat → Int
  | 0 => 255
  | n + 1 => (decRollingCounter (rollingCounterAfterSends n)).2

theorem rollingCounterAfterSends_eq (n : Nat) :
    rollingCounterAfterSends n = 255 - (n : Int) := by
  induction n with
  | zero => rfl
  | succ m ih =>
    simp only [rollingCounterAfterSends, decRollingCounter, ih]
    push_cast
    ring

/-- Embedding of the entry pushed by `Device.#queueWriteCommand`: the command
code is byte 4 of the finalized packet, the correlation counter is byte 2, and
the packet itself is retained (the `resolve`/`reject` closures are behaviour,
not data, and are not part of the state). -/
structure PendingCommand where
  command : Nat
  rollingCounter : Nat
  buffer : List Nat
  written : Bool
deriving DecidableEq

def queueEntryFor (command : List Nat) : PendingCommand :=
  { command := command.getD 4 0
    rollingCounter := command.getD 2 0
    buffer := command
    written := false }

theorem sendCommandPacket_getD2 (subCommand : List Nat) (c : Int) :
    (sendCommandPacket subCommand c).getD 2 0 = toUint8 c := by
  simp only [sendCommandPacket, finalizePacket, decRollingCounter]
  rw [getD_set_ne _ _ _ _ _ (by decide),
      getD_set_self _ _ _ _ (by simp [commandsHEADER])]

/-- C7: the sequence id is an 8-bit counter decremented with 8-bit wrapping on
each send: the byte at offset 2 of the `n`-th packet sent after INIT (which
sets the counter to `0xFF`) is `(0xFF - n + 1) mod 256`, and the write-queue
correlation entry for that packet stores that same 8-bit value. -/
theorem sequence_id_decrements_with_wrap (n : Nat) (hn : 1 ≤ n)
    (subCommand : List Nat) :
    ((sendCommandPacket subCommand (rollingCounterAfterSends (n - 1))).getD 2 0 : Int)
        = (0xFF - (n : Int) + 1) % 256
      ∧ (queueEntryFor (sendCommandPacket subCommand (rollingCounterAfterSends (n - 1)))).rollingCounter
        = (sendCommandPacket subCommand (rollingCounterAfterSends (n - 1))).getD 2 0 := by
  constructor
  · rw [sendCommandPacket_getD2, rollingCounterAfterSends_eq]
    simp only [toUint8]
    rw [Int.toNat_of_nonneg (Int.emod_nonneg _ (by norm_num))]
    have hcast : (((n - 1 : Nat)) : Int) = (n : Int) - 1 := by
      rw [Nat.cast_sub hn]; norm_num
    rw [hcast]
    congr 1
    ring
  · rfl

theorem sequence_id_decrements_with_wrap_witness :
    1 ≤ 257 ∧
      (((sendCommandPacket [0x55] (rollingCounterAfterSends (257 - 1))).getD 2 0 : Int)
          = (0xFF - (257 : Int) + 1) % 256
        ∧ (queueEntryFor (sendCommandPacket [0x55] (rollingCounterAfterSends (257 - 1)))).rollingCounter
          = (sendCommandPacket [0x55] (rollingCounterAfterSends (257 - 1))).getD 2 0) :=
  ⟨by decide, sequence_id_decrements_with_wrap 257 (by decide) [0x55]⟩

/-- Embedding of the timeout handler's queue update in `#queueWriteCommand`:
`this.writeQueue = this.writeQueue.filter((q) => q.command === command[4] &&
q.rollingCounter !== command[2])`, where `command` is the packet whose
5-second timer fired. -/
def timeoutFilter (queue : List PendingCommand) (cmd seq : Nat) : List PendingCommand :=
  queue.filter (fun q => q.command == cmd && q.rollingCounter != seq)

/-- C1 (code bug): when the pending command `(0x55, 0xFF)` times out while the
unrelated `(0x56, 0xFE)` and the same-code `(0x55, 0xFE)` are also queued, the
timeout filter removes the timed-out entry but also drops the unrelated
different-command entry `(0x56, 0xFE)` — only same-command entries with a
different sequence id survive, contradicting the removal of exactly the one
timed-out `PendingCommand`. -/
theorem timeoutFilter_drops_unrelated_commands :
    timeoutFilter
        [⟨0x55, 0xFF, [], true⟩, ⟨0x56, 0xFE, [], false⟩, ⟨0x55, 0xFE, [], false⟩]
        0x55 0xFF
      = [⟨0x55, 0xFE, [], false⟩] := rfl

/-- Embedding of the chunk decomposition performed by `Device.#writeToDevice`:
while bytes remain, take at most `maxPacketLength` of them as the next chunk.
The loop variable `remaining` strictly decreases only when `maxPacketLength ≥ 1`,
which both adapters guarantee (20 and 63); the fuel argument makes the
recursion structural and equals the source loop when `fuel ≥ buffer.length`. -/
def chunkBuffer (maxPacketLength : Nat) : Nat → List Nat → List (List Nat)
  | _, [] => []
  | 0, _ :: _ => []
  | fuel + 1, b :: bs =>
      (b :: bs).take maxPacketLength
        :: chunkBuffer maxPacketLength fuel ((b :: bs).drop maxPacketLength)

/-- Embedding of `Device.#writeToDevice`: each chunk is passed to the
transport's `writeCommand`; the `try`/`catch` inside the loop logs and swallows
any failure, so every chunk is attempted and the function always resolves.
The returned trace pairs each chunk with the transport's result for it, making
the swallowed failures observable. -/
def writeToDevice (maxPacketLength : Nat) (write : List Nat → Except Unit Unit)
    (buffer : List Nat) : Except Unit (List (List Nat × Except Unit Unit)) :=
  Except.ok ((chunkBuffer maxPacketLength buffer.length buffer).map fun c => (c, write c))

/-- A transport whose every write fails. -/
def alwaysFailWrite : List Nat → Except Unit Unit := fun _ => Except.error ()

/-- C9 (counterexample): writing a 25-byte buffer over a transport whose
writes all fail still resolves successfully — `#writeToDevice` catches and logs
each failure, attempts both chunks, and propagates nothing to any caller. -/
theorem writeToDevice_swallows_write_failure :
    alwaysFailWrite (List.replicate 20 7) = Except.error ()
      ∧ writeToDevice 20 alwaysFailWrite (List.replicate 25 7)
        = Except.ok [(List.replicate 20 7, Except.error ()),
                     (List.replicate 5 7, Except.error ())] := by
  constructor
  · rfl
  · rfl

theorem chunkBuffer_join (maxLen : Nat) (hm : 1 ≤ maxLen) :
    ∀ (fuel : Nat) (buffer : List Nat), buffer.length ≤ fuel →
      (chunkBuffer maxLen fuel buffer).flatten = buffer := by
  intro fuel
  induction fuel with
  | zero =>
    intro buffer hb
    cases buffer with
    | nil => rfl
    | cons b bs => simp at hb
  | succ f ih =>
    intro buffer hb
    cases buffer with
    | nil => rfl
    | cons b bs =>
      have hb' : bs.length + 1 ≤ f + 1 := by simpa using hb
      simp only [chunkBuffer, List.flatten]
      rw [ih ((b :: bs).drop maxLen) (by simp [List.length_drop]; omega)]
      exact List.take_append_drop _ _

theorem chunkBuffer_sizes (maxLen : Nat) (hm : 1 ≤ maxLen) :
    ∀ (fuel : Nat) (buffer : List Nat),
      ∀ c ∈ chunkBuffer maxLen fuel buffer, c.length ≤ maxLen ∧ c ≠ [] := by
  intro fuel
  induction fuel with
  | zero =>
    intro buffer c hc
    cases buffer <;> simp [chunkBuffer] at hc
  | succ f ih =>
    intro buffer c hc
    cases buffer with
    | nil => simp [chunkBuffer] at hc
    | cons b bs =>
      simp only [chunkBuffer, List.mem_cons] at hc
      rcases hc with h | h
      · subst h
        refine ⟨by simp, ?_⟩
        cases maxLen with
        | zero => omega
        | succ m => simp [List.take]
      · exact ih _ c h

/-- C9 (amended): a transport write failure during the chunked write of a
queued command's buffer is caught and logged inside the loop, never propagated:
`#writeToDevice` always resolves, calling the transport once per chunk — the
buffer split in order into maximum-packet-length pieces whose concatenation is
the whole buffer — regardless of individual write failures. The write queue is
untouched by the write path; a pending command failed by a dead transport is
only rejected later by its own 5-second timeout. -/
theorem writeToDevice_chunked_total (maxLen : Nat) (hm : 1 ≤ maxLen)
    (write : List Nat → Except Unit Unit) (buffer : List Nat) :
    writeToDevice maxLen write buffer
        = Except.ok ((chunkBuffer maxLen buffer.length buffer).map fun c => (c, write c))
      ∧ (chunkBuffer maxLen buffer.length buffer).flatten = buffer
      ∧ ∀ c ∈ chunkBuffer maxLen buffer.length buffer, c.length ≤ maxLen ∧ c ≠ [] :=
  ⟨rfl, chunkBuffer_join maxLen hm buffer.length buffer le_rfl,
    chunkBuffer_sizes maxLen hm buffer.length buffer⟩

theorem writeToDevice_chunked_total_witness :
    1 ≤ 20 ∧
      (writeToDevice 20 alwaysFailWrite [1, 2, 3]
          = Except.ok ((chunkBuffer 20 3 [1, 2, 3]).map fun c => (c, alwaysFailWrite c))
        ∧ (chunkBuffer 20 3 [1, 2, 3]).flatten = [1, 2, 3]
        ∧ ∀ c ∈ chunkBuffer 20 3 [1, 2, 3], c.length ≤ 20 ∧ c ≠ []) :=
  ⟨by decide, writeToDevice_chunked_total 20 (by decide) alwaysFailWrite [1, 2, 3]⟩

/-- Modelled from the spec: `commands.SET_MEASUREMENT_PERIOD` lives in
`constants.js`, which is not among the provided sources. `setMeasurementPeriod`
writes bytes 3–6 of the template, so it is a sub-command of (at least) seven
bytes whose byte 0 is the command code (placeholder value) and whose bytes 3–6
carry the period; the template's own filler bytes are zero. -/
def commandsSET_MEASUREMENT_PERIOD : List Nat := [0x1B, 0, 0, 0, 0, 0, 0]

/-- `Device` constructor: `this.minMeasurementPeriod = 10` (milliseconds). -/
def minMeasurementPeriod : Nat := 10

/-- The byte-filling step of `Device.setMeasurementPeriod`: store the period
as four little-endian bytes at offsets 3–6 of the sub-command
(`(p >> k) & 0xff` agrees with `(p >>> k) % 256` for `p < 2^32`). -/
def setPeriodBytes (p : Nat) : List Nat :=
  ((((commandsSET_MEASUREMENT_PERIOD.set 3 ((p >>> 0) % 256)).set
      4 ((p >>> 8) % 256)).set
      5 ((p >>> 16) % 256)).set
      6 ((p >>> 24) % 256))

/-- Embedding of `Device.setMeasurementPeriod`: clamp the requested
microsecond period from below at `minMeasurementPeriod * 1000`, then fill
bytes 3–6 with the little-endian encoding. (The resulting sub-command is then
framed and queued through `sendCommand`.) -/
def setMeasurementPeriodCmd (periodMicroseconds : Nat) : List Nat :=
  setPeriodBytes
    (if periodMicroseconds < minMeasurementPeriod * 1000 then
      minMeasurementPeriod * 1000
    else periodMicroseconds)

theorem setPeriodBytes_getD (p : Nat) :
    (setPeriodBytes p).getD 3 0 = p % 256
      ∧ (setPeriodBytes p).getD 4 0 = p / 256 % 256
      ∧ (setPeriodBytes p).getD 5 0 = p / 256 ^ 2 % 256
      ∧ (setPeriodBytes p).getD 6 0 = p / 256 ^ 3 % 256 := by
  have hlen : commandsSET_MEASUREMENT_PERIOD.length = 7 := rfl
  have hshift : ∀ k, p >>> k = p / 2 ^ k := fun k => Nat.shiftRight_eq_div_pow p k
  refine ⟨?_, ?_, ?_, ?_⟩
  · rw [setPeriodBytes, getD_set_ne _ _ _ _ _ (by decide),
        getD_set_ne _ _ _ _ _ (by decide), getD_set_ne _ _ _ _ _ (by decide),
        getD_set_self _ _ _ _ (by simp [hlen]), hshift]
    norm_num
  · rw [setPeriodBytes, getD_set_ne _ _ _ _ _ (by decide),
        getD_set_ne _ _ _ _ _ (by decide),
        getD_set_self _ _ _ _ (by simp [hlen]), hshift]
    norm_num
  · rw [setPeriodBytes, getD_set_ne _ _ _ _ _ (by decide),
        getD_set_self _ _ _ _ (by simp [hlen]), hshift]
    norm_num
  · rw [setPeriodBytes, getD_set_self _ _ _ _ (by simp [hlen]), hshift]
    norm_num

/-- C10: `setMeasurementPeriod` clamps its argument from below at
`minMeasurementPeriod` (10 ms) times 1000: a request under the minimum sends
the minimum's command, and a request at or above it is encoded unchanged as
four little-endian bytes at offsets 3–6 of the command payload (for requests
fitting the 32-bit field, the four bytes reconstruct the request exactly). -/
theorem setMeasurementPeriod_clamps (p : Nat) (hp : p < 2 ^ 32) :
    (p < minMeasurementPeriod * 1000 →
        setMeasurementPeriodCmd p = setMeasurementPeriodCmd (minMeasurementPeriod * 1000))
      ∧ (minMeasurementPeriod * 1000 ≤ p →
          (setMeasurementPeriodCmd p).getD 3 0 = p % 256
            ∧ (setMeasurementPeriodCmd p).getD 4 0 = p / 256 % 256
            ∧ (setMeasurementPeriodCmd p).getD 5 0 = p / 256 ^ 2 % 256
            ∧ (setMeasurementPeriodCmd p).getD 6 0 = p / 256 ^ 3 % 256
            ∧ (setMeasurementPeriodCmd p).getD 3 0
                + 256 * (setMeasurementPeriodCmd p).getD 4 0
                + 256 ^ 2 * (setMeasurementPeriodCmd p).getD 5 0
                + 256 ^ 3 * (setMeasurementPeriodCmd p).getD 6 0 = p) := by
  constructor
  · intro h
    rw [setMeasurementPeriodCmd, if_pos h, setMeasurementPeriodCmd,
        if_neg (lt_irrefl _)]
  · intro h
    have hcmd : setMeasurementPeriodCmd p = setPeriodBytes p := by
      rw [setMeasurementPeriodCmd, if_neg (by omega)]
    obtain ⟨h3, h4, h5, h6⟩ := setPeriodBytes_getD p
    rw [hcmd]
    refine ⟨h3, h4, h5, h6, ?_⟩
    rw [h3, h4, h5, h6]
    omega

theorem setMeasurementPeriod_clamps_witness :
    2000000 < 2 ^ 32 ∧
      (minMeasurementPeriod * 1000 ≤ 2000000 →
          (setMeasurementPeriodCmd 2000000).getD 3 0 = 2000000 % 256
            ∧ (setMeasurementPeriodCmd 2000000).getD 4 0 = 2000000 / 256 % 256
            ∧ (setMeasurementPeriodCmd 2000000).getD 5 0 = 2000000 / 256 ^ 2 % 256
            ∧ (setMeasurementPeriodCmd 2000000).getD 6 0 = 2000000 / 256 ^ 3 % 256
            ∧ (setMeasurementPeriodCmd 2000000).getD 3 0
                + 256 * (setMeasurementPeriodCmd 2000000).getD 4 0
                + 256 ^ 2 * (setMeasurementPeriodCmd 2000000).getD 5 0
                + 256 ^ 3 * (setMeasurementPeriodCmd 2000000).getD 6 0 = 2000000) :=
  ⟨by norm_num, (setMeasurementPeriod_clamps 2000000 (by norm_num)).2⟩

theorem and_two_pow_eq_iff (av i : Nat) :
    (av &&& 2 ^ i = 2 ^ i) ↔ av.testBit i = true := by
  rw [Nat.and_two_pow]
  cases h : av.testBit i
  · simp only [Bool.toNat_false, zero_mul]
    constructor
    · intro h0
      exact absurd h0.symm (Nat.two_pow_pos i).ne'
    · intro h0
      exact absurd h0 Bool.false_ne_true
  · simp

/-- Embedding of the enumeration loop of `Device.#getAvailableSensors`:
`mask` starts at 1 and is shifted left once per iteration, and the loop runs
`for (let i = 0; i < 31; ++i)`, so it examines bits 0 through 30 of the
available-sensor mask; each set bit yields one `GET_SENSOR_INFO` query for
that channel. Returns the queried channel numbers in order. (For the masks
involved — `2^i` with `i ≤ 30` — the JavaScript int32 `&`/`===` test agrees
with the `Nat` bitwise test.) -/
def getAvailableSensorsQueries (availableSensors : Nat) : List Nat :=
  ((List.range 31).foldl
    (fun (acc : List Nat × Nat) i =>
      (if availableSensors &&& acc.2 = acc.2 then acc.1 ++ [i] else acc.1,
        acc.2 <<< 1))
    ([], 1)).1

theorem queriesLoop_inv (av : Nat) (k : Nat) :
    (List.range k).foldl
        (fun (acc : List Nat × Nat) i =>
          (if av &&& acc.2 = acc.2 then acc.1 ++ [i] else acc.1, acc.2 <<< 1))
        ([], 1)
      = ((List.range k).filter (fun i => av.testBit i), 2 ^ k) := by
  induction k with
  | zero => rfl
  | succ m ih =>
    rw [List.range_succ, List.foldl_append, ih, List.filter_append]
    simp only [List.foldl_cons, List.foldl_nil, List.filter, Nat.shiftLeft_eq]
    cases h : av.testBit m
    · rw [if_neg (by rw [and_two_pow_eq_iff, h]; simp)]
      simp [pow_succ]
    · rw [if_pos (by rw [and_two_pow_eq_iff, h])]
      simp [pow_succ]

/-- Embedding of a `Sensor` (from `Sensor.ts`) restricted to the state the
engine consults: channel number, numeric id, mutual-exclusion mask, typical
period in milliseconds (decoded as `getUint32(136)/1000`, hence a rational),
enabled flag, latest value and retained value history. The display name, unit
string and `Float64` bound fields play no role in any engine decision. -/
structure Sensor where
  number : Nat
  id : Nat
  mutalExclusionMask : Nat
  typicalPeriod : ℚ
  enabled : Bool
  value : Option ℚ
  values : List ℚ
deriving DecidableEq

/-- `DataView.getUint32(off, true)`: little-endian 32-bit read, throwing a
`RangeError` past the end of the buffer. -/
def getUint32LE (l : List Nat) (off : Nat) : Except Unit Nat :=
  if off + 4 ≤ l.length then
    Except.ok (l.getD off 0 + 256 * l.getD (off + 1) 0
      + 256 ^ 2 * l.getD (off + 2) 0 + 256 ^ 3 * l.getD (off + 3) 0)
  else Except.error ()

/-- `DataView.getUint8(off)`: single-byte read, throwing past the end. -/
def getUint8E (l : List Nat) (off : Nat) : Except Unit Nat :=
  if off < l.length then Except.ok (l.getD off 0) else Except.error ()

/-- Embedding of the response processing of `Device.#getSensorInfo`: read the
sensor id at payload offset 2 (`getUint32`, unsigned, so "non-positive" means
zero) and return without adding a sensor when it is non-positive; otherwise
decode the fields the engine consults — channel number (byte 0),
mutual-exclusion mask (offset 144) and typical period (offset 136, divided by
1000) — and append a new disabled sensor to the collection. -/
def getSensorInfoApply (sensors : List Sensor) (response : List Nat) :
    Except Unit (List Sensor) := do
  let sensorId ← getUint32LE response 2
  if sensorId ≤ 0 then
    return sensors
  else
    let number ← getUint8E response 0
    let typRaw ← getUint32LE response 136
    let mask ← getUint32LE response 144
    return sensors ++ [Sensor.mk number sensorId mask ((typRaw : ℚ) / 1000) false none []]

/-- C3 (counterexample): a capability mask with only bit 31 set yields no
per-channel query at all — the enumeration loop in `#getAvailableSensors`
runs `i` from 0 to 30 only, so "for every bit position 0 through 31 whose bit
is set, a query for that channel is sent" fails at bit 31. -/
theorem availableSensors_bit31_never_queried :
    Nat.testBit 0x80000000 31 = true
      ∧ getAvailableSensorsQueries 0x80000000 = [] := by decide

/-- C3 (amended): sensor enumeration issues exactly one per-channel query for
each set bit among positions 0 through 30 of the available-sensor mask, in
ascending order (bit 31 is never examined), and a response whose embedded
sensor id is non-positive is skipped without adding a sensor and without
error. -/
theorem sensor_enumeration_bits0to30_and_skip (availableSensors : Nat)
    (sensors : List Sensor) (response : List Nat) :
    getAvailableSensorsQueries availableSensors
        = (List.range 31).filter (fun i => availableSensors.testBit i)
      ∧ (getUint32LE response 2 = Except.ok 0 →
          getSensorInfoApply sensors response = Except.ok sensors) := by
  constructor
  · rw [getAvailableSensorsQueries, queriesLoop_inv]
  · intro h
    unfold getSensorInfoApply
    rw [h]
    rfl

theorem sensor_enumeration_bits0to30_and_skip_witness :
    getAvailableSensorsQueries 0x80000005 = [0, 2]
      ∧ getSensorInfoApply [] [9, 9, 0, 0, 0, 0] = Except.ok [] := by
  constructor
  · rw [(sensor_enumeration_bits0to30_and_skip 0x80000005 [] []).1]
    decide
  · exact (sensor_enumeration_bits0to30_and_skip 0x80000005 [] [9, 9, 0, 0, 0, 0]).2
      (by rfl)

/-- Notifications emitted by the device orchestrator on acknowledged start and
stop commands. -/
inductive DeviceEvent where
  | measurementsStarted
  | measurementsStopped
deriving DecidableEq

/-- The device state touched by the start/stop orchestration: the `collecting`
flag, the configured measurement period and the sensor collection. -/
structure DeviceState where
  collecting : Bool
  measurementPeriod : ℚ
  sensors : List Sensor
deriving DecidableEq

/-- Embedding of the acknowledgment handling of `Device.startMeasurements`:
the earlier `setMeasurementPeriod` send does not mutate device state, so the
only state effect is gated on the response — if the first payload byte is
zero, set `collecting := true` and emit `measurements-started`; otherwise
change nothing and raise nothing. (Reading byte 0 of an empty payload would
throw, hence the `Except`.) -/
def startMeasurementsAck (st : DeviceState) (response : List Nat) :
    Except Unit (DeviceState × List DeviceEvent) := do
  let b ← getUint8E response 0
  if b = 0 then
    return ({ st with collecting := true }, [DeviceEvent.measurementsStarted])
  else
    return (st, [])

/-- Embedding of the acknowledgment handling of `Device.stopMeasurements`:
if the first payload byte is zero, set `collecting := false` and emit
`measurements-stopped`; otherwise change nothing and raise nothing. -/
def stopMeasurementsAck (st : DeviceState) (response : List Nat) :
    Except Unit (DeviceState × List DeviceEvent) := do
  let b ← getUint8E response 0
  if b = 0 then
    return ({ st with collecting := false }, [DeviceEvent.measurementsStopped])
  else
    return (st, [])

/-- C8: `startMeasurements` and `stopMeasurements` set the collecting flag
(to true and false respectively) and emit their notification exactly when the
first byte of the acknowledgment payload is zero; on a non-zero byte the whole
device state is left unchanged, no event is emitted, and no error is raised. -/
theorem start_stop_ack_gates_collecting (st : DeviceState) (response : List Nat)
    (b : Nat) (hb : getUint8E response 0 = Except.ok b) :
    (b = 0 →
        startMeasurementsAck st response
            = Except.ok ({ st with collecting := true },
                [DeviceEvent.measurementsStarted])
          ∧ stopMeasurementsAck st response
            = Except.ok ({ st with collecting := false },
                [DeviceEvent.measurementsStopped]))
      ∧ (b ≠ 0 →
          startMeasurementsAck st response = Except.ok (st, [])
            ∧ stopMeasurementsAck st response = Except.ok (st, [])) := by
  constructor
  · intro h0
    subst h0
    constructor
    · simp only [startMeasurementsAck]
      rw [hb]
      rfl
    · simp only [stopMeasurementsAck]
      rw [hb]
      rfl
  · intro h0
    constructor
    · simp only [startMeasurementsAck]
      rw [hb]
      cases b with
      | zero => exact absurd rfl h0
      | succ n => rfl
    · simp only [stopMeasurementsAck]
      rw [hb]
      cases b with
      | zero => exact absurd rfl h0
      | succ n => rfl

theorem start_stop_ack_gates_collecting_witness :
    startMeasurementsAck ⟨false, 10, []⟩ [0]
        = Except.ok (⟨true, 10, []⟩, [DeviceEvent.measurementsStarted]) :=
  ((start_stop_ack_gates_collecting ⟨false, 10, []⟩ [0] 0 rfl).1 rfl).1

/-- Modelled from the spec: the response-type tag for measurement
notifications (`responseType.MEASUREMENT`) lives in `constants.js`, which is
not among the provided sources; the dispatcher only compares it for equality,
so a distinct placeholder value is used. -/
def responseTypeMEASUREMENT : Nat := 0x20

/-- What `#handleResponse` does with a complete response: either hand it to
`#processMeasurements`, or hand command code (byte 4), sequence id (byte 5)
and payload (bytes from 6) to `#resolveWriteCommand`. -/
inductive Dispatch where
  | measurement (response : List Nat)
  | commandResponse (command rollingCounter : Nat) (payload : List Nat)
deriving DecidableEq

/-- The reassembly state of `Device`: `this.response` (a possibly null
buffer, first field) and `this.remainingResponseLength` (second field, a
plain number that can go negative when a chunk overshoots). -/
structure ReassemblyState where
  response : Option (List Nat)
  remaining : Int
deriving DecidableEq

/-- The constructor sets `this.response = null` and
`this.remainingResponseLength = 0`. -/
def reInit : ReassemblyState := ⟨none, 0⟩

/-- Embedding of the tail of `Device.#handleResponse` once `this.response`
holds the candidate buffer: read the declared total length from byte 1
(throwing past a 1-byte buffer); if the buffer is still shorter, record how
many bytes are missing and wait; otherwise dispatch — a measurement response
is processed without clearing the buffer or the remaining counter (`rem` is
the value `remainingResponseLength` holds at this point), any other response
resolves the write queue with byte 4, byte 5 and the payload from byte 6
(`new DataView(buffer, 6)` throws when the buffer is shorter than 6) and
resets the reassembly state. -/
def finishResponse (resp : List Nat) (rem : Int) :
    Except Unit (ReassemblyState × Option Dispatch) :=
  match getUint8E resp 1 with
  | Except.error e => Except.error e
  | Except.ok resLength =>
    if resp.length < resLength then
      Except.ok (⟨some resp, (resLength : Int) - resp.length⟩, none)
    else
      match getUint8E resp 0 with
      | Except.error e => Except.error e
      | Except.ok resType =>
        if resType = responseTypeMEASUREMENT then
          Except.ok (⟨some resp, rem⟩, some (Dispatch.measurement resp))
        else
          match getUint8E resp 4, getUint8E resp 5 with
          | Except.ok resCommand, Except.ok resRollingCounter =>
            if 6 ≤ resp.length then
              Except.ok (⟨none, 0⟩,
                some (Dispatch.commandResponse resCommand resRollingCounter (resp.drop 6)))
            else
              Except.error ()
          | _, _ => Except.error ()

/-- Embedding of `Device.#handleResponse`: while more data is expected
(`remainingResponseLength > 0`) the notification is appended to the buffer
(`this.response!` on a null buffer would throw) and, if the total is still
short of the declared length, the handler returns; otherwise the notification
replaces the buffer and the completion check runs. -/
def handleResponse (s : ReassemblyState) (notification : List Nat) :
    Except Unit (ReassemblyState × Option Dispatch) :=
  if 0 < s.remaining then
    match s.response with
    | none => Except.error ()
    | some r =>
      if 0 < s.remaining - notification.length then
        Except.ok (⟨some (r ++ notification), s.remaining - notification.length⟩, none)
      else
        finishResponse (r ++ notification) (s.remaining - notification.length)
  else
    finishResponse notification s.remaining

/-- Feeding a sequence of transport notifications through `#handleResponse`,
collecting the dispatched complete responses in order. -/
def feedNotifications :
    ReassemblyState → List (List Nat) → Except Unit (ReassemblyState × List Dispatch)
  | s, [] => Except.ok (s, [])
  | s, c :: cs =>
    match handleResponse s c with
    | Except.error e => Except.error e
    | Except.ok (s1, d) =>
      match feedNotifications s1 cs with
      | Except.error e => Except.error e
      | Except.ok (s2, ds) => Except.ok (s2, d.toList ++ ds)

theorem getUint8E_ok (l : List Nat) (i : Nat) (h : i < l.length) :
    getUint8E l i = Except.ok (l.getD i 0) := by
  simp [getUint8E, h]

theorem getD_append_left {α : Type} (x y : List α) (i : Nat) (d : α)
    (h : i < x.length) : (x ++ y).getD i d = x.getD i d := by
  simp [List.getD_eq_getElem?_getD, List.getElem?_append_left h]

theorem handleResponse_fresh (s : ReassemblyState) (c : List Nat)
    (h : ¬ 0 < s.remaining) : handleResponse s c = finishResponse c s.remaining := by
  simp only [handleResponse, if_neg h]

theorem handleResponse_append (r c : List Nat) (rem : Int) (h : 0 < rem) :
    handleResponse ⟨some r, rem⟩ c
      = if 0 < rem - c.length then
          Except.ok (⟨some (r ++ c), rem - c.length⟩, none)
        else finishResponse (r ++ c) (rem - c.length) := by
  simp only [handleResponse, if_pos h]

theorem feed_cons_none (s s1 : ReassemblyState) (c : List Nat)
    (cs : List (List Nat)) (h : handleResponse s c = Except.ok (s1, none)) :
    feedNotifications s (c :: cs) = feedNotifications s1 cs := by
  simp only [feedNotifications, h]
  cases hfeed : feedNotifications s1 cs with
  | error e => rfl
  | ok p => simp

theorem feed_singleton (s : ReassemblyState) (c : List Nat) :
    feedNotifications s [c]
      = (handleResponse s c).map (fun p => (p.1, p.2.toList)) := by
  simp only [feedNotifications]
  cases h : handleResponse s c with
  | error e => rfl
  | ok p =>
    obtain ⟨s1, d⟩ := p
    simp [Except.map]

theorem flatten_nil_of_all_ne (cs : List (List Nat))
    (hne : ∀ c ∈ cs, c ≠ []) (h : cs.flatten = []) : cs = [] := by
  cases cs with
  | nil => rfl
  | cons x xs =>
    simp only [List.flatten, List.append_eq_nil] at h
    exact absurd h.1 (hne x (List.mem_cons_self x xs))

theorem append_eq_of_length_le (x y R : List Nat) (h : x ++ y = R)
    (hl : R.length ≤ x.length) : x = R ∧ y = [] := by
  have hlen : x.length + y.length = R.length := by
    rw [← h]; simp
  have hy : y = [] := List.eq_nil_of_length_eq_zero (by omega)
  subst hy
  simp only [List.append_nil] at h
  exact ⟨h, rfl⟩

theorem finishResponse_incomplete (resp : List Nat) (rem : Int) (L : Nat)
    (h1 : 1 < resp.length) (hL : resp.getD 1 0 = L) (hlt : resp.length < L) :
    finishResponse resp rem
      = Except.ok (⟨some resp, (L : Int) - resp.length⟩, none) := by
  simp only [finishResponse, getUint8E_ok resp 1 (by omega), hL]
  rw [if_pos hlt]

/-- While a partial response is buffered and more chunks are owed, feeding the
remaining chunks of an exact-length response leads to the same outcome as
feeding the response whole from the initial state. -/
theorem feed_progress :
    ∀ (cs : List (List Nat)) (acc R : List Nat),
      (∀ c ∈ cs, c ≠ []) → acc ++ cs.flatten = R → 2 ≤ acc.length →
      acc.length < R.length → R.getD 1 0 = R.length →
      feedNotifications ⟨some acc, (R.length : Int) - acc.length⟩ cs
        = feedNotifications reInit [R] := by
  intro cs
  induction cs with
  | nil =>
    intro acc R hne hjoin h2 hlt hL
    simp only [List.flatten_nil, List.append_nil] at hjoin
    subst hjoin
    exact absurd hlt (lt_irrefl _)
  | cons c cs' ih =>
    intro acc R hne hjoin h2 hlt hL
    have hprefix : (acc ++ c) ++ cs'.flatten = R := by
      rw [← hjoin]; simp
    have hrem : (0 : Int) < (R.length : Int) - acc.length := by omega
    by_cases hcase : (acc ++ c).length < R.length
    · have harith : (R.length : Int) - acc.length - c.length
          = (R.length : Int) - (acc ++ c).length := by
        push_cast [List.length_append]
        ring
      have hstep : handleResponse ⟨some acc, (R.length : Int) - acc.length⟩ c
          = Except.ok (⟨some (acc ++ c), (R.length : Int) - (acc ++ c).length⟩,
              none) := by
        rw [handleResponse_append acc c _ hrem,
          if_pos (by simp only [List.length_append] at hcase; omega), harith]
      rw [feed_cons_none _ _ _ _ hstep]
      exact ih (acc ++ c) R (fun x hx => hne x (List.mem_cons_of_mem c hx))
        hprefix (by simp [List.length_append]; omega) hcase hL
    · push_neg at hcase
      obtain ⟨heq, hnil⟩ := append_eq_of_length_le (acc ++ c) cs'.flatten R
        hprefix hcase
      have hcs' : cs' = [] :=
        flatten_nil_of_all_ne cs' (fun x hx => hne x (List.mem_cons_of_mem c hx))
          hnil
      subst hcs'
      have hzero : (R.length : Int) - acc.length - c.length = 0 := by
        have := congrArg List.length heq
        simp only [List.length_append] at this
        omega
      have hstep : handleResponse ⟨some acc, (R.length : Int) - acc.length⟩ c
          = finishResponse R 0 := by
        rw [handleResponse_append acc c _ hrem,
          if_neg (by simp only [List.length_append] at hcase; omega),
          heq, hzero]
      rw [feed_singleton, hstep, feed_singleton,
        handleResponse_fresh reInit R (by norm_num [reInit])]
      rfl

/-- C4 (counterexample): the three-chunk split `[[0x20], [3], [9]]` of the
complete 3-byte measurement response `[0x20, 3, 9]` throws — the 1-byte first
chunk replaces the buffer and `getUint8(1)` reads out of bounds — while
feeding the response whole dispatches it; so chunk boundaries with a 1-byte
first chunk do not reproduce the whole-response result. -/
theorem reassembly_one_byte_first_chunk_throws :
    feedNotifications reInit [[0x20, 3, 9]]
        = Except.ok (⟨some [0x20, 3, 9], 0⟩, [Dispatch.measurement [0x20, 3, 9]])
      ∧ feedNotifications reInit [[0x20], [3], [9]] = Except.error () := by
  exact ⟨rfl, rfl⟩

/-- C4 (amended): for a complete response whose buffer length equals the
declared total length at byte 1, feeding any partition of it into consecutive
non-empty chunks whose first chunk holds at least the two header bytes yields
exactly the same outcome — dispatched responses, errors and final reassembly
state alike — as feeding the whole response as one notification; and while a
response is being reassembled, a notification that does not yet satisfy the
declared length is always appended to the buffer, never treated as a fresh
response. -/
theorem reassembly_chunking_invariance (R : List Nat) (cs : List (List Nat))
    (hcs : cs ≠ []) (hne : ∀ c ∈ cs, c ≠ [])
    (hfirst : 2 ≤ cs.headI.length)
    (hjoin : cs.flatten = R) (hL : R.getD 1 0 = R.length) :
    feedNotifications reInit cs = feedNotifications reInit [R]
      ∧ (∀ (r c : List Nat) (rem : Int), 0 < rem → (c.length : Int) < rem →
          handleResponse ⟨some r, rem⟩ c
            = Except.ok (⟨some (r ++ c), rem - c.length⟩, none)) := by
  constructor
  · cases cs with
    | nil => exact absurd rfl hcs
    | cons c0 rest =>
      simp only [List.headI] at hfirst
      have hjoin' : c0 ++ rest.flatten = R := by
        rw [← hjoin]; rfl
      by_cases hcase : c0.length < R.length
      · have hc0L : c0.getD 1 0 = R.length := by
          rw [← getD_append_left c0 rest.flatten 1 0 (by omega), hjoin', hL]
        have hstep : handleResponse reInit c0
            = Except.ok (⟨some c0, (R.length : Int) - c0.length⟩, none) := by
          rw [handleResponse_fresh reInit c0 (by norm_num [reInit])]
          exact finishResponse_incomplete c0 0 R.length (by omega) hc0L hcase
        rw [feed_cons_none _ _ _ _ hstep]
        exact feed_progress rest c0 R
          (fun x hx => hne x (List.mem_cons_of_mem c0 hx)) hjoin' hfirst hcase hL
      · push_neg at hcase
        obtain ⟨heq, hnil⟩ := append_eq_of_length_le c0 rest.flatten R hjoin' hcase
        have hrest : rest = [] :=
          flatten_nil_of_all_ne rest
            (fun x hx => hne x (List.mem_cons_of_mem c0 hx)) hnil
        subst hrest
        rw [heq]
  · intro r c rem h1 h2
    rw [handleResponse_append r c rem h1, if_pos (by omega)]

theorem reassembly_chunking_invariance_witness :
    feedNotifications reInit [[0x20, 5], [1, 2], [3]]
        = feedNotifications reInit [[0x20, 5, 1, 2, 3]]
      ∧ handleResponse ⟨some [0x20, 5], (3 : Int)⟩ [1, 2]
          = Except.ok (⟨some [0x20, 5, 1, 2], (1 : Int)⟩, none) := by
  have h := reassembly_chunking_invariance [0x20, 5, 1, 2, 3]
    [[0x20, 5], [1, 2], [3]] (by decide) (by decide) (by decide) (by decide)
    (by decide)
  exact ⟨h.1, h.2 [0x20, 5] [1, 2] 3 (by norm_num) (by norm_num)⟩

/-- Embedding of `1 << sensor2.number` tested against the 32-bit
mutual-exclusion mask (`(mask & sensor.specs.mutalExclusionMask) === mask`):
JavaScript shift counts are reduced modulo 32 and the int32 `&`/`===` test
agrees with testing bit `number % 32` for masks below `2^32` (which
`getUint32` guarantees). -/
def jsBitTest (mask n : Nat) : Bool := Nat.testBit mask (n % 32)

/-- One iteration of the `this.sensors.forEach((sensor2) => ...)` scan inside
the `state-changed` handler registered in `Device.#getSensorInfo`: skip the
enabling sensor itself (by channel number) and disabled sensors; force off an
enabled sensor whose channel bit is in the enabling sensor's exclusion mask
(a direct field write — no event, no re-entry into the scan); otherwise raise
the running measurement period to the sensor's typical period if larger. The
accumulator carries the running period and the sensors processed so far. -/
def scanStep (s : Sensor) (acc : ℚ × List Sensor) (s2 : Sensor) : ℚ × List Sensor :=
  if s.number ≠ s2.number then
    if s2.enabled then
      if jsBitTest s.mutalExclusionMask s2.number then
        (acc.1, acc.2 ++ [{ s2 with enabled := false }])
      else if acc.1 < s2.typicalPeriod then
        (s2.typicalPeriod, acc.2 ++ [s2])
      else
        (acc.1, acc.2 ++ [s2])
    else
      (acc.1, acc.2 ++ [s2])
  else
    (acc.1, acc.2 ++ [s2])

/-- Embedding of the enable branch of the `state-changed` handler: set the
device measurement period to the enabling sensor's typical period, then scan
all sensors in order. (The trailing `#restartMeasurements` call only
stops/starts collection via the acknowledgment logic modelled separately.) -/
def constraintScan (sensors : List Sensor) (s : Sensor) : ℚ × List Sensor :=
  sensors.foldl (scanStep s) (s.typicalPeriod, [])

/-- Embedding of `Sensor.setEnabled(true)` reached through the device: a
genuine false→true transition flips the flag and emits `state-changed`,
running the constraint scan with the now-enabled sensor; enabling an
already-enabled sensor does nothing (`if (this.enabled !== enabled)`).
In-place mutation of the found sensor object is modelled by updating the
list entry with that channel number (the registry invariant keeps channel
numbers unique). -/
def enableSensor (measurementPeriod : ℚ) (sensors : List Sensor) (n : Nat) :
    ℚ × List Sensor :=
  match sensors.find? (fun s => s.number == n) with
  | none => (measurementPeriod, sensors)
  | some s =>
    if s.enabled then
      (measurementPeriod, sensors)
    else
      constraintScan
        (sensors.map fun s2 =>
          if s2.number == n then { s2 with enabled := true } else s2)
        { s with enabled := true }

/-- What the scan does to one sensor, per the claim: an enabled sensor whose
channel bit is in the enabling sensor's exclusion mask is forced off; every
other sensor is untouched. -/
def scanUpdate (s1 s2 : Sensor) : Sensor :=
  if s1.number ≠ s2.number then
    if s2.enabled then
      if jsBitTest s1.mutalExclusionMask s2.number then { s2 with enabled := false }
      else s2
    else s2
  else s2

/-- A sensor other than the enabling one that survives the scan enabled. -/
def survivesScan (s1 s2 : Sensor) : Bool :=
  (s2.number != s1.number) && s2.enabled && !jsBitTest s1.mutalExclusionMask s2.number

theorem if_lt_eq_max (p0 t : ℚ) : (if p0 < t then t else p0) = max p0 t := by
  rcases le_or_lt t p0 with h | h
  · rw [if_neg (not_lt.mpr h), max_eq_left h]
  · rw [if_pos h, max_eq_right h.le]

theorem scanFold_characterization (s1 : Sensor) :
    ∀ (l : List Sensor) (p0 : ℚ) (done : List Sensor),
      l.foldl (scanStep s1) (p0, done)
        = (((l.filter (survivesScan s1)).map (fun s2 => s2.typicalPeriod)).foldl
              max p0,
            done ++ l.map (scanUpdate s1)) := by
  intro l
  induction l with
  | nil => intro p0 done; simp
  | cons s2 l' ih =>
    intro p0 done
    simp only [List.foldl_cons, List.map_cons, List.filter_cons]
    by_cases h1 : s1.number = s2.number
    · have hb : survivesScan s1 s2 = false := by
        simp [survivesScan, h1]
      have hstep : scanStep s1 (p0, done) s2 = (p0, done ++ [s2]) := by
        simp [scanStep, h1]
      have hupd : scanUpdate s1 s2 = s2 := by
        simp [scanUpdate, h1]
      rw [hstep, ih, hb, hupd]
      simp
    · cases h2 : s2.enabled
      · have hb : survivesScan s1 s2 = false := by
          simp [survivesScan, h2]
        have hstep : scanStep s1 (p0, done) s2 = (p0, done ++ [s2]) := by
          simp [scanStep, h1, h2]
        have hupd : scanUpdate s1 s2 = s2 := by
          simp [scanUpdate, h1, h2]
        rw [hstep, ih, hb, hupd]
        simp
      · cases h3 : jsBitTest s1.mutalExclusionMask s2.number
        · have hb : survivesScan s1 s2 = true := by
            simp [survivesScan, h1, h2, h3]
            exact fun h => absurd h.symm h1
          have hstep : scanStep s1 (p0, done) s2
              = (if p0 < s2.typicalPeriod then (s2.typicalPeriod, done ++ [s2])
                 else (p0, done ++ [s2])) := by
            simp [scanStep, h1, h2, h3]
          have hupd : scanUpdate s1 s2 = s2 := by
            simp [scanUpdate, h1, h2, h3]
          have hsplit : scanStep s1 (p0, done) s2
              = (max p0 s2.typicalPeriod, done ++ [s2]) := by
            rw [hstep, ← if_lt_eq_max p0 s2.typicalPeriod]
            rcases lt_or_le p0 s2.typicalPeriod with h | h
            · rw [if_pos h, if_pos h]
            · rw [if_neg (not_lt.mpr h), if_neg (not_lt.mpr h)]
          rw [hsplit, ih, hb, hupd]
          simp
        · have hb : survivesScan s1 s2 = false := by
            simp [survivesScan, h3]
          have hstep : scanStep s1 (p0, done) s2
              = (p0, done ++ [{ s2 with enabled := false }]) := by
            simp [scanStep, h1, h2, h3]
          have hupd : scanUpdate s1 s2 = { s2 with enabled := false } := by
            simp [scanUpdate, h1, h2, h3]
          rw [hstep, ih, hb, hupd]
          simp

/-- C6: a genuine false→true enable transition of sensor S first sets the
device measurement period to S's typical period and then scans every other
currently enabled sensor S2: if S2's channel bit is in S's mutual-exclusion
mask, S2 is forced to disabled by a direct field write (no event is emitted,
so the scan is not re-entered, and no error is raised — the scan is a total
function); otherwise S2's typical period raises the device period when
larger. The resulting period is the maximum of S's typical period and the
typical periods of the surviving enabled sensors, and the resulting sensor
list differs from the original only in S being enabled and the mask-excluded
enabled sensors being disabled. -/
theorem enable_transition_constraint_scan (p : ℚ) (sensors : List Sensor)
    (n : Nat) (S : Sensor)
    (hfind : sensors.find? (fun s => s.number == n) = some S)
    (hSen : S.enabled = false)
    (huniq : sensors.Pairwise fun a b => a.number ≠ b.number) :
    enableSensor p sensors n
      = (((sensors.filter fun s2 =>
              (s2.number != n) && s2.enabled
                && !jsBitTest S.mutalExclusionMask s2.number).map
            fun s2 => s2.typicalPeriod).foldl max S.typicalPeriod,
          sensors.map fun s2 =>
            if s2.number = n then { s2 with enabled := true }
            else if s2.enabled && jsBitTest S.mutalExclusionMask s2.number then
              { s2 with enabled := false }
            else s2) := by
  have hSn : S.number = n := by
    have h := List.find?_some hfind
    simpa using h
  simp only [enableSensor, hfind]
  rw [if_neg (by simp [hSen]), constraintScan, scanFold_characterization,
    List.nil_append]
  have hfq : ∀ s2 ∈ sensors,
      (survivesScan { S with enabled := true } ∘ fun s2 =>
          if s2.number == n then { s2 with enabled := true } else s2) s2
        = ((s2.number != n) && s2.enabled
            && !jsBitTest S.mutalExclusionMask s2.number) := by
    intro s2 _
    by_cases hx : s2.number = n
    · simp [Function.comp, survivesScan, hx, hSn]
    · simp [Function.comp, survivesScan, hx, hSn]
  refine Prod.ext ?_ ?_
  · show ((((sensors.map fun s2 =>
        if s2.number == n then { s2 with enabled := true } else s2).filter
          (survivesScan { S with enabled := true })).map
            fun s2 => s2.typicalPeriod).foldl max
              ({ S with enabled := true } : Sensor).typicalPeriod) = _
    rw [List.filter_map, List.map_map, List.filter_congr hfq]
    have hmapeq : ((sensors.filter fun s2 =>
            (s2.number != n) && s2.enabled
              && !jsBitTest S.mutalExclusionMask s2.number).map
          ((fun s2 => s2.typicalPeriod) ∘ fun s2 =>
            if s2.number == n then { s2 with enabled := true } else s2))
        = ((sensors.filter fun s2 =>
            (s2.number != n) && s2.enabled
              && !jsBitTest S.mutalExclusionMask s2.number).map
          fun s2 => s2.typicalPeriod) := by
      apply List.map_congr_left
      intro s2 _
      by_cases hx : s2.number = n
      · simp [Function.comp, hx]
      · simp [Function.comp, hx]
    rw [hmapeq]
  · show ([] : List Sensor) ++ ((sensors.map fun s2 =>
        if s2.number == n then { s2 with enabled := true } else s2).map
          (scanUpdate { S with enabled := true })) = _
    rw [List.nil_append, List.map_map]
    apply List.map_congr_left
    intro s2 _
    by_cases hx : s2.number = n
    · simp [Function.comp, scanUpdate, hx, hSn]
    · cases h2 : s2.enabled
      · simp [Function.comp, scanUpdate, hx, hSn, h2]
      · cases h3 : jsBitTest S.mutalExclusionMask s2.number
        · simp [Function.comp, scanUpdate, hx, hSn, h2, h3]
        · simp only [Function.comp, scanUpdate, hx, hSn, h2, h3]
          simp [hx, h2, h3]
          intro h
          exact absurd h.symm hx

theorem enable_transition_constraint_scan_witness :
    enableSensor 5 [⟨0, 1, 2, 10, false, none, []⟩, ⟨1, 2, 0, 100, true, none, []⟩] 0
      = (10, [⟨0, 1, 2, 10, true, none, []⟩, ⟨1, 2, 0, 100, false, none, []⟩]) := by
  have h := enable_transition_constraint_scan 5
    [⟨0, 1, 2, 10, false, none, []⟩, ⟨1, 2, 0, 100, true, none, []⟩] 0
    ⟨0, 1, 2, 10, false, none, []⟩ rfl rfl (by decide)
  rw [h]
  decide

/-- Modelled from the spec: measurement sub-type tag for the narrow-mask
float32 layout (`measurementType.NORMAL_REAL32`, `constants.js` is not among
the provided sources); the decoder only compares tags for equality, so
distinct placeholder values are used for the tags. -/
def measurementTypeNORMAL_REAL32 : Nat := 6

/-- Modelled from the spec: wide-mask float32 measurement tag. -/
def measurementTypeWIDE_REAL32 : Nat := 7

/-- Modelled from the spec: aperiodic float32 measurement tag. -/
def measurementTypeAPERIODIC_REAL32 : Nat := 8

/-- Modelled from the spec: single-channel float32 measurement tag. -/
def measurementTypeSINGLE_CHANNEL_REAL32 : Nat := 9

/-- Modelled from the spec: aperiodic int32 measurement tag. -/
def measurementTypeAPERIODIC_INT32 : Nat := 10

/-- Modelled from the spec: single-channel int32 measurement tag. -/
def measurementTypeSINGLE_CHANNEL_INT32 : Nat := 11

/-- Modelled from the spec: start-time packet tag (ignored by the decoder). -/
def measurementTypeSTART_TIME : Nat := 12

/-- Modelled from the spec: dropped-sample packet tag (ignored). -/
def measurementTypeDROPPED : Nat := 13

/-- Modelled from the spec: period packet tag (ignored). -/
def measurementTypePERIOD : Nat := 14

/-- `DataView.getUint16(off, true)`: little-endian 16-bit read. -/
def getUint16LE (l : List Nat) (off : Nat) : Except Unit Nat :=
  if off + 2 ≤ l.length then
    Except.ok (l.getD off 0 + 256 * l.getD (off + 1) 0)
  else Except.error ()

/-- `DataView.getFloat32(off, true)`: little-endian IEEE-754 single decode as
an exact rational. Normal and subnormal values (including signed zeroes)
decode exactly; NaN and the infinities (exponent field 255) have no rational
image and are left outside the embedding, as are out-of-range reads (which
throw). -/
def getFloat32LE (l : List Nat) (off : Nat) : Except Unit ℚ :=
  if off + 4 ≤ l.length then
    let bits := l.getD off 0 + 256 * l.getD (off + 1) 0
      + 256 ^ 2 * l.getD (off + 2) 0 + 256 ^ 3 * l.getD (off + 3) 0
    let sign : Nat := bits / 2 ^ 31
    let expo : Nat := bits / 2 ^ 23 % 256
    let frac : Nat := bits % 2 ^ 23
    if expo = 255 then Except.error ()
    else
      let mag : ℚ := if expo = 0 then (frac : ℚ) / 2 ^ 149
        else ((2 ^ 23 + frac : ℚ) * 2 ^ expo) / 2 ^ 150
      Except.ok (if sign = 1 then -mag else mag)
  else Except.error ()

/-- `DataView.getInt32(off, true)`: little-endian signed 32-bit read. -/
def getInt32LE (l : List Nat) (off : Nat) : Except Unit Int :=
  match getUint32LE l off with
  | Except.error e => Except.error e
  | Except.ok u =>
    Except.ok (if u < 2 ^ 31 then (u : Int) else (u : Int) - 2 ^ 32)

/-- Embedding of `Device.#getSensorsWithMask`: walk bits 0 through 31 of the
channel bitmask in ascending order (`mask` starts at 1 and shifts left once
per iteration); each set bit whose channel number exists in the sensor
collection selects that sensor, and absent channels are silently skipped.
(The JS int32 mask arithmetic agrees with the `Nat` bit test for bits 0–31
and a `getUint16`/`getUint32` mask.) -/
def getSensorsWithMask (sensors : List Sensor) (channelMask : Nat) : List Sensor :=
  ((List.range 32).foldl
    (fun (acc : List Sensor × Nat) i =>
      (if channelMask &&& acc.2 = acc.2 then
          match sensors.find? (fun c => c.number == i) with
          | some sensor => acc.1 ++ [sensor]
          | none => acc.1
        else acc.1,
        acc.2 <<< 1))
    ([], 1)).1

/-- Embedding of `Sensor.setValue`: record the latest value and, when the
keep flag is set, append it to the retained history (the synchronous
`value-changed` notification carries no state in this model). -/
def Sensor.setValue (s : Sensor) (v : ℚ) (keep : Bool) : Sensor :=
  { s with value := some v, values := if keep then s.values ++ [v] else s.values }

/-- In-place mutation of a selected sensor object, modelled by updating the
list entry with that channel number (channel numbers are unique in the
registry). -/
def setValueByNumber (sensors : List Sensor) (n : Nat) (v : ℚ) (keep : Bool) :
    List Sensor :=
  sensors.map fun s => if s.number = n then s.setValue v keep else s

/-- The inner `for (ix)` pass of the value loop in `#processMeasurements`:
one value per selected sensor, read at the running byte offset which advances
by 4 per value; a `none` entry is the `undefined` produced by a failed
`getSensor` lookup in the single-channel branches, on which the method call
throws. Returns the updated sensors and the advanced offset. -/
def oneSample (keep : Bool) (read : Nat → Except Unit ℚ) :
    List (Option Nat) → Nat → List Sensor → Except Unit (List Sensor × Nat)
  | [], index, sensors => Except.ok (sensors, index)
  | none :: _, _, _ => Except.error ()
  | some n :: rest, index, sensors =>
    match read index with
    | Except.error e => Except.error e
    | Except.ok v => oneSample keep read rest (index + 4) (setValueByNumber sensors n v keep)

/-- The outer `for (count)` pass of the value loop: one inner pass per sample
index, threading the byte offset and the sensor collection. -/
def sampleLoop (keep : Bool) (read : Nat → Except Unit ℚ)
    (selNums : List (Option Nat)) :
    Nat → Nat → List Sensor → Except Unit (List Sensor × Nat)
  | 0, index, sensors => Except.ok (sensors, index)
  | count + 1, index, sensors =>
    match oneSample keep read selNums index sensors with
    | Except.error e => Except.error e
    | Except.ok (sensors1, index1) => sampleLoop keep read selNums count index1 sensors1

/-- Embedding of `Device.#processMeasurements`: dispatch on the sub-type byte
at offset 4; the normal (narrow-mask) and wide layouts select sensors through
`#getSensorsWithMask` (16-bit mask at 5, count at 7, values from 9; 32-bit
mask at 5, count at 9, values from 11), the single-channel/aperiodic layouts
select the one channel named by byte 6 (count at 7, values from 8, float or
int32 by tag), and the start-time/dropped/period tags and unknown tags are
ignored (value count stays 0 and no sensor is touched). -/
def processMeasurements (sensors : List Sensor) (keepValues : Bool)
    (response : List Nat) : Except Unit (List Sensor) :=
  match getUint8E response 4 with
  | Except.error e => Except.error e
  | Except.ok t =>
    let runLoop := fun (selNums : List (Option Nat)) (read : Nat → Except Unit ℚ)
        (valueCount index : Nat) =>
      match sampleLoop keepValues read selNums valueCount index sensors with
      | Except.error e => Except.error e
      | Except.ok (sensors1, _) => Except.ok sensors1
    if t = measurementTypeNORMAL_REAL32 then
      match getUint16LE response 5, getUint8E response 7 with
      | Except.ok mask, Except.ok valueCount =>
        runLoop ((getSensorsWithMask sensors mask).map fun s => some s.number)
          (fun i => getFloat32LE response i) valueCount 9
      | _, _ => Except.error ()
    else if t = measurementTypeWIDE_REAL32 then
      match getUint32LE response 5, getUint8E response 9 with
      | Except.ok mask, Except.ok valueCount =>
        runLoop ((getSensorsWithMask sensors mask).map fun s => some s.number)
          (fun i => getFloat32LE response i) valueCount 11
      | _, _ => Except.error ()
    else if t = measurementTypeAPERIODIC_REAL32
        ∨ t = measurementTypeSINGLE_CHANNEL_REAL32 then
      match getUint8E response 6, getUint8E response 7 with
      | Except.ok ch, Except.ok valueCount =>
        runLoop [(sensors.find? fun c => c.number == ch).map fun s => s.number]
          (fun i => getFloat32LE response i) valueCount 8
      | _, _ => Except.error ()
    else if t = measurementTypeAPERIODIC_INT32
        ∨ t = measurementTypeSINGLE_CHANNEL_INT32 then
      match getUint8E response 6, getUint8E response 7 with
      | Except.ok ch, Except.ok valueCount =>
        runLoop [(sensors.find? fun c => c.number == ch).map fun s => s.number]
          (fun i =>
            match getInt32LE response i with
            | Except.error e => Except.error e
            | Except.ok z => Except.ok (z : ℚ))
          valueCount 8
      | _, _ => Except.error ()
    else
      Except.ok sensors

theorem sensorsMaskLoop_inv (sensors : List Sensor) (mask : Nat) :
    ∀ k, (List.range k).foldl
        (fun (acc : List Sensor × Nat) i =>
          (if mask &&& acc.2 = acc.2 then
              match sensors.find? (fun c => c.number == i) with
              | some sensor => acc.1 ++ [sensor]
              | none => acc.1
            else acc.1,
            acc.2 <<< 1))
        ([], 1)
      = ((List.range k).filterMap fun i =>
          if mask.testBit i then sensors.find? (fun c => c.number == i) else none,
          2 ^ k) := by
  intro k
  induction k with
  | zero => rfl
  | succ m ih =>
    rw [List.range_succ, List.foldl_append, ih, List.filterMap_append]
    simp only [List.foldl_cons, List.foldl_nil]
    cases h : mask.testBit m
    · rw [if_neg (by rw [and_two_pow_eq_iff, h]; simp)]
      simp [h, Nat.shiftLeft_eq, pow_succ, List.filterMap]
    · rw [if_pos (by rw [and_two_pow_eq_iff]; exact h)]
      cases hf : sensors.find? (fun c => c.number == m)
      · simp [h, hf, Nat.shiftLeft_eq, pow_succ, List.filterMap]
      · simp [h, hf, Nat.shiftLeft_eq, pow_succ, List.filterMap]

theorem getSensorsWithMask_eq (sensors : List Sensor) (mask : Nat) :
    getSensorsWithMask sensors mask
      = (List.range 32).filterMap fun i =>
          if mask.testBit i then sensors.find? (fun c => c.number == i)
          else none := by
  rw [getSensorsWithMask, sensorsMaskLoop_inv]

theorem oneSample_characterization (keep : Bool) (read : Nat → Except Unit ℚ) :
    ∀ (nums : List Nat) (vals : List ℚ) (index : Nat) (sensors : List Sensor),
      vals.length = nums.length →
      (∀ j, j < nums.length → read (index + 4 * j) = Except.ok (vals.getD j 0)) →
      oneSample keep read (nums.map some) index sensors
        = Except.ok ((nums.zip vals).foldl
            (fun ss nv => setValueByNumber ss nv.1 nv.2 keep) sensors,
          index + 4 * nums.length) := by
  intro nums
  induction nums with
  | nil =>
    intro vals index sensors hlen hread
    simp [oneSample]
  | cons n nums' ih =>
    intro vals index sensors hlen hread
    cases vals with
    | nil => simp at hlen
    | cons v vals' =>
      have hr0 : read index = Except.ok v := by
        have h := hread 0 (by simp)
        simpa using h
      simp only [List.map_cons, oneSample, hr0]
      have hread' : ∀ j, j < nums'.length →
          read (index + 4 + 4 * j) = Except.ok (vals'.getD j 0) := by
        intro j hj
        have h := hread (j + 1) (by simp only [List.length_cons]; omega)
        have harith : index + 4 * (j + 1) = index + 4 + 4 * j := by ring
        rw [harith] at h
        simpa using h
      rw [ih vals' (index + 4) (setValueByNumber sensors n v keep)
        (by simpa using hlen) hread']
      simp only [List.length_cons, List.zip_cons_cons, List.foldl_cons]
      rw [show index + 4 + 4 * nums'.length = index + 4 * (nums'.length + 1) from
        by ring]

theorem oneSample_index (keep : Bool) (read : Nat → Except Unit ℚ) :
    ∀ (selNums : List (Option Nat)) (index : Nat) (sensors s1 : List Sensor)
      (i1 : Nat),
      oneSample keep read selNums index sensors = Except.ok (s1, i1) →
      i1 = index + 4 * selNums.length := by
  intro selNums
  induction selNums with
  | nil =>
    intro index sensors s1 i1 h
    simp only [oneSample, Except.ok.injEq, Prod.mk.injEq] at h
    simp only [List.length_nil]
    omega
  | cons o rest ih =>
    intro index sensors s1 i1 h
    cases o with
    | none => simp [oneSample] at h
    | some n =>
      simp only [oneSample] at h
      cases hr : read index with
      | error e => rw [hr] at h; simp at h
      | ok v =>
        rw [hr] at h
        have h2 := ih (index + 4) (setValueByNumber sensors n v keep) s1 i1 h
        simp only [List.length_cons]
        omega

theorem sampleLoop_index (keep : Bool) (read : Nat → Except Unit ℚ)
    (selNums : List (Option Nat)) :
    ∀ (count index : Nat) (sensors ss : List Sensor) (idx' : Nat),
      sampleLoop keep read selNums count index sensors = Except.ok (ss, idx') →
      idx' = index + 4 * (count * selNums.length) := by
  intro count
  induction count with
  | zero =>
    intro index sensors ss idx' h
    simp only [sampleLoop, Except.ok.injEq, Prod.mk.injEq] at h
    omega
  | succ m ih =>
    intro index sensors ss idx' h
    simp only [sampleLoop] at h
    cases ho : oneSample keep read selNums index sensors with
    | error e => rw [ho] at h; simp at h
    | ok p =>
      obtain ⟨s1, i1⟩ := p
      rw [ho] at h
      have h1 := oneSample_index keep read selNums index sensors s1 i1 ho
      have h2 := ih i1 s1 ss idx' h
      have hsm : (m + 1) * selNums.length
          = m * selNums.length + selNums.length := by ring
      rw [hsm]
      omega

/-- C5: decoding the normal-type measurement response with channel bitmask
`0b11`, 2 samples and interleaved little-endian float32 values
`[1.0, 2.0, 3.0, 4.0]` — with sensors on channels 0 and 1 present and the
keep-values flag set — leaves channel 0 with retained history `[1.0, 3.0]`
and latest value 3.0, and channel 1 with `[2.0, 4.0]` and latest value 4.0.
In general: bitmask-selected sensors are resolved in ascending bit order with
channels absent from the collection silently skipped; each sample consumes
one 4-byte value per selected sensor, in that same ascending order, at byte
offsets advancing by 4; and the value loop advances the offset by exactly
4 · valueCount · (number of selected channels). -/
theorem measurement_decode_interleaved :
    processMeasurements
          [⟨0, 1, 0, 10, true, none, []⟩, ⟨1, 2, 0, 10, true, none, []⟩] true
          [0x20, 25, 0, 0, 6, 3, 0, 2, 0,
            0, 0, 128, 63, 0, 0, 0, 64, 0, 0, 64, 64, 0, 0, 128, 64]
        = Except.ok
            [⟨0, 1, 0, 10, true, some 3, [1, 3]⟩,
              ⟨1, 2, 0, 10, true, some 4, [2, 4]⟩]
      ∧ (∀ (sensors : List Sensor) (mask : Nat),
          getSensorsWithMask sensors mask
            = (List.range 32).filterMap fun i =>
                if mask.testBit i then sensors.find? (fun c => c.number == i)
                else none)
      ∧ (∀ (keep : Bool) (read : Nat → Except Unit ℚ) (nums : List Nat)
            (vals : List ℚ) (index : Nat) (sensors : List Sensor),
          vals.length = nums.length →
          (∀ j, j < nums.length →
            read (index + 4 * j) = Except.ok (vals.getD j 0)) →
          oneSample keep read (nums.map some) index sensors
            = Except.ok ((nums.zip vals).foldl
                (fun ss nv => setValueByNumber ss nv.1 nv.2 keep) sensors,
              index + 4 * nums.length))
      ∧ (∀ (keep : Bool) (read : Nat → Except Unit ℚ)
            (selNums : List (Option Nat)) (count index : Nat)
            (sensors ss : List Sensor) (idx' : Nat),
          sampleLoop keep read selNums count index sensors = Except.ok (ss, idx') →
          idx' = index + 4 * (count * selNums.length)) := by
  refine ⟨?_, getSensorsWithMask_eq, oneSample_characterization, sampleLoop_index⟩
  have h9 : getFloat32LE [0x20, 25, 0, 0, 6, 3, 0, 2, 0,
      0, 0, 128, 63, 0, 0, 0, 64, 0, 0, 64, 64, 0, 0, 128, 64] 9
      = Except.ok 1 := by norm_num [getFloat32LE, List.getD]
  have h13 : getFloat32LE [0x20, 25, 0, 0, 6, 3, 0, 2, 0,
      0, 0, 128, 63, 0, 0, 0, 64, 0, 0, 64, 64, 0, 0, 128, 64] 13
      = Except.ok 2 := by norm_num [getFloat32LE, List.getD]
  have h17 : getFloat32LE [0x20, 25, 0, 0, 6, 3, 0, 2, 0,
      0, 0, 128, 63, 0, 0, 0, 64, 0, 0, 64, 64, 0, 0, 128, 64] 17
      = Except.ok 3 := by norm_num [getFloat32LE, List.getD]
  have h21 : getFloat32LE [0x20, 25, 0, 0, 6, 3, 0, 2, 0,
      0, 0, 128, 63, 0, 0, 0, 64, 0, 0, 64, 64, 0, 0, 128, 64] 21
      = Except.ok 4 := by norm_num [getFloat32LE, List.getD]
  have hsel : (getSensorsWithMask
      [⟨0, 1, 0, 10, true, none, []⟩, ⟨1, 2, 0, 10, true, none, []⟩] 3).map
        (fun s => (some s.number : Option Nat)) = [some 0, some 1] := by decide
  simp only [processMeasurements, measurementTypeNORMAL_REAL32]
  norm_num [getUint8E, getUint16LE, List.getD]
  rw [hsel]
  simp only [sampleLoop, oneSample, h9, h13, h17, h21]
  norm_num [setValueByNumber, Sensor.setValue]

theorem measurement_decode_interleaved_witness :
    oneSample true
        (fun i => getFloat32LE [0x20, 25, 0, 0, 6, 3, 0, 2, 0,
          0, 0, 128, 63, 0, 0, 0, 64, 0, 0, 64, 64, 0, 0, 128, 64] i)
        ([0, 1].map some) 9
        [⟨0, 1, 0, 10, true, none, []⟩, ⟨1, 2, 0, 10, true, none, []⟩]
        = Except.ok ((([0, 1].zip [(1 : ℚ), 2]).foldl
            (fun ss nv => setValueByNumber ss nv.1 nv.2 true)
            [⟨0, 1, 0, 10, true, none, []⟩, ⟨1, 2, 0, 10, true, none, []⟩]),
          9 + 4 * 2)
      ∧ (14 : Nat) = 2 + 4 * (3 * 1) := by
  constructor
  · exact measurement_decode_interleaved.2.2.1 true
      (fun i => getFloat32LE [0x20, 25, 0, 0, 6, 3, 0, 2, 0,
        0, 0, 128, 63, 0, 0, 0, 64, 0, 0, 64, 64, 0, 0, 128, 64] i)
      [0, 1] [1, 2] 9
      [⟨0, 1, 0, 10, true, none, []⟩, ⟨1, 2, 0, 10, true, none, []⟩]
      (by decide)
      (by
        intro j hj
        simp only [List.length_cons, List.length_nil] at hj
        interval_cases j
        · norm_num [getFloat32LE, List.getD]
        · norm_num [getFloat32LE, List.getD])
  · exact measurement_decode_interleaved.2.2.2 true (fun _ => Except.ok 0)
      [some 5] 3 2 [] [] 14 rfl
